import Mathlib

set_option maxRecDepth 200000

/-!
Shallow embedding of the pngme chunk codec (src/chunk_type.rs, src/chunk.rs).

Bytes are modelled as `Nat` values below 256; unsigned 32-bit integers are
`Nat` values reduced modulo 2^32 wherever the Rust code would wrap.
-/

/-- Big-endian recomposition of four bytes into a 32-bit value, as
`u32::from_be_bytes` does. -/
def be4 (a b c d : Nat) : Nat := ((a * 256 + b) * 256 + c) * 256 + d

/-- Big-endian byte decomposition of a 32-bit value, as `u32::to_be_bytes`
does. -/
def u32_to_be (n : Nat) : List Nat :=
  [n / 16777216 % 256, n / 65536 % 256, n / 256 % 256, n % 256]

/-- One shift step of the bitwise CRC-32 computation with the polynomial
0x04C11DB7 used by `crc::CRC_32_CKSUM` (chunk.rs lines 41-42). -/
def crc32_shift (c : Nat) : Nat :=
  if 2147483648 ≤ c then ((c * 2) % 4294967296) ^^^ 79764919
  else (c * 2) % 4294967296

/-- Iterate `crc32_shift` over the eight bits of one input byte. -/
def crc32_bits : Nat → Nat → Nat
  | 0, c => c
  | n + 1, c => crc32_bits n (crc32_shift c)

/-- Feed one byte into the CRC-32 state (xor into the top byte, then eight
shift steps), matching the unreflected `crc` crate update for
`CRC_32_CKSUM` (poly 0x04C11DB7, refin = refout = false). -/
def crc32_update (c b : Nat) : Nat := crc32_bits 8 ((c ^^^ (b * 16777216)) % 4294967296)

/-- The checksum computed by `crc::Crc::<u32>::new(&crc::CRC_32_CKSUM).checksum`:
initial value 0, process every byte, xor the final state with 0xFFFFFFFF. -/
def crc32_cksum (bs : List Nat) : Nat := (bs.foldl crc32_update 0) ^^^ 4294967295

/-- A 4-byte PNG chunk type code (chunk_type.rs, `struct ChunkType`), holding
exactly four bytes as the Rust `[u8; 4]` field does. -/
structure ChunkType where
  b0 : Nat
  b1 : Nat
  b2 : Nat
  b3 : Nat
deriving DecidableEq

/-- The byte array underlying a `ChunkType` (chunk_type.rs `bytes`). -/
def ChunkType.bytes (t : ChunkType) : List Nat := [t.b0, t.b1, t.b2, t.b3]

/-- Whether a byte is an ASCII uppercase or lowercase letter
(chunk_type.rs `is_valid_byte`). -/
def ChunkType.is_valid_byte (b : Nat) : Bool :=
  (65 ≤ b && b ≤ 90) || (97 ≤ b && b ≤ 122)

/-- Whether bit `n` (counting from the least significant end) of `byte` is
zero (chunk_type.rs `is_indicator_zero`). -/
def ChunkType.is_indicator_zero (byte n : Nat) : Bool :=
  byte &&& (1 <<< n) == 0

/-- Bit 5 of the first byte is zero (chunk_type.rs `is_critical`). -/
def ChunkType.is_critical (t : ChunkType) : Bool :=
  ChunkType.is_indicator_zero t.b0 5

/-- Bit 5 of the second byte is zero (chunk_type.rs `is_public`). -/
def ChunkType.is_public (t : ChunkType) : Bool :=
  ChunkType.is_indicator_zero t.b1 5

/-- Bit 5 of the third byte is zero (chunk_type.rs `is_reserved_bit_valid`). -/
def ChunkType.is_reserved_bit_valid (t : ChunkType) : Bool :=
  ChunkType.is_indicator_zero t.b2 5

/-- Bit 5 of the fourth byte is one (chunk_type.rs `is_safe_to_copy`; note the
negation). -/
def ChunkType.is_safe_to_copy (t : ChunkType) : Bool :=
  ! ChunkType.is_indicator_zero t.b3 5

/-- Validity only depends on the reserved bit (chunk_type.rs `is_valid`). -/
def ChunkType.is_valid (t : ChunkType) : Bool :=
  t.is_reserved_bit_valid

/-- Errors raised while building a `ChunkType`
(chunk_type.rs `ChunkTypeDecodingError`). -/
inductive ChunkTypeDecodingError where
  | BadByte (b : Nat)
  | BadLength (n : Nat)
deriving DecidableEq

/-- Construction of a `ChunkType` from four raw bytes
(chunk_type.rs `TryFrom<[u8; 4]>`): scan the bytes left to right and fail
with `BadByte` on the first byte that is not an ASCII letter. -/
def ChunkType.try_from4 (a b c d : Nat) : Except ChunkTypeDecodingError ChunkType :=
  if ! ChunkType.is_valid_byte a then .error (.BadByte a)
  else if ! ChunkType.is_valid_byte b then .error (.BadByte b)
  else if ! ChunkType.is_valid_byte c then .error (.BadByte c)
  else if ! ChunkType.is_valid_byte d then .error (.BadByte d)
  else .ok ⟨a, b, c, d⟩

/-- Construction of a `ChunkType` from the UTF-8 bytes of a string
(chunk_type.rs `FromStr`): fail with `BadLength` unless the string is exactly
four bytes long, then validate the bytes left to right exactly as the
fixed-array constructor does. -/
def ChunkType.from_str (s : List Nat) : Except ChunkTypeDecodingError ChunkType :=
  match s with
  | [a, b, c, d] => ChunkType.try_from4 a b c d
  | _ => .error (.BadLength s.length)

/-- Whether a byte is a UTF-8 continuation byte (0x80-0xBF). -/
def utf8Cont (b : Nat) : Bool := 128 ≤ b && b ≤ 191

/-- The admissible range of the second byte of a 3-byte UTF-8 sequence,
given its first byte (RFC 3629; rules out overlong forms and surrogates). -/
def utf8Second3 (b c1 : Nat) : Bool :=
  if b = 224 then 160 ≤ c1 && c1 ≤ 191
  else if b = 237 then 128 ≤ c1 && c1 ≤ 159
  else utf8Cont c1

/-- The admissible range of the second byte of a 4-byte UTF-8 sequence,
given its first byte (RFC 3629; rules out overlong forms and code points
beyond 0x10FFFF). -/
def utf8Second4 (b c1 : Nat) : Bool :=
  if b = 240 then 144 ≤ c1 && c1 ≤ 191
  else if b = 244 then 128 ≤ c1 && c1 ≤ 143
  else utf8Cont c1

/-- Decoding of one UTF-8 scalar value from the front of a byte sequence
per RFC 3629: the character and the remaining bytes, or `none` when the
bytes do not start with a valid UTF-8 sequence. -/
def utf8Step : List Nat → Option (Char × List Nat)
  | [] => none
  | b :: rest =>
    if b ≤ 127 then some (Char.ofNat b, rest)
    else if b ≤ 193 then none
    else if b ≤ 223 then
      match rest with
      | c1 :: rest2 =>
        if utf8Cont c1 then some (Char.ofNat ((b - 192) * 64 + (c1 - 128)), rest2) else none
      | [] => none
    else if b ≤ 239 then
      match rest with
      | c1 :: c2 :: rest2 =>
        if utf8Second3 b c1 && utf8Cont c2 then
          some (Char.ofNat (((b - 224) * 64 + (c1 - 128)) * 64 + (c2 - 128)), rest2)
        else none
      | _ => none
    else if b ≤ 244 then
      match rest with
      | c1 :: c2 :: c3 :: rest2 =>
        if utf8Second4 b c1 && utf8Cont c2 && utf8Cont c3 then
          some (Char.ofNat ((((b - 240) * 64 + (c1 - 128)) * 64 + (c2 - 128)) * 64 + (c3 - 128)),
            rest2)
        else none
      | _ => none
    else none

/-- Fuel-indexed UTF-8 decoding loop: decode one scalar with `utf8Step` and
recurse on the rest. Since each step consumes at least one byte, fuel equal
to the byte count is always sufficient. -/
def utf8DecodeF : Nat → List Nat → Option (List Char)
  | _, [] => some []
  | 0, _ :: _ => none
  | f + 1, b :: rest =>
    match utf8Step (b :: rest) with
    | some (ch, rest2) => (utf8DecodeF f rest2).map (fun cs => ch :: cs)
    | none => none

/-- UTF-8 decoding of a byte sequence per RFC 3629, the check performed by
`std::str::from_utf8`: `none` exactly when the bytes are not valid UTF-8. -/
def utf8Decode (bs : List Nat) : Option (List Char) := utf8DecodeF bs.length bs

/-- Rendering of a `ChunkType` as text (chunk_type.rs `Display`): decode the
four bytes as UTF-8; `none` models the panic branch taken when the bytes are
not valid UTF-8. -/
def ChunkType.render (t : ChunkType) : Option String :=
  match utf8Decode t.bytes with
  | some cs => some (String.mk cs)
  | none => none

/-- A PNG chunk record (chunk.rs `struct Chunk`): length field, type code,
data payload and stored CRC. -/
structure Chunk where
  length : Nat
  chunk_type : ChunkType
  chunk_data : List Nat
  crc : Nat
deriving DecidableEq

/-- Construction of a chunk from a type code and a data payload
(chunk.rs `Chunk::new`): the length field is `chunk_data.len() as u32`
(a truncating cast, hence the reduction modulo 2^32) and the CRC is
`CRC_32_CKSUM` over the type bytes followed by the data bytes. -/
def Chunk.new (t : ChunkType) (d : List Nat) : Chunk :=
  { length := d.length % 4294967296
    chunk_type := t
    chunk_data := d
    crc := crc32_cksum (t.bytes ++ d) }

/-- The data payload decoded as UTF-8 text (chunk.rs `data_as_string`);
`none` models the wrapped `FromUtf8Error` returned when the payload is not
valid UTF-8. -/
def Chunk.data_as_string (c : Chunk) : Option String :=
  match utf8Decode c.chunk_data with
  | some cs => some (String.mk cs)
  | none => none

/-- Serialization of a chunk (chunk.rs `as_bytes`): the big-endian length
field, the four type-code bytes, the data bytes, and the big-endian CRC,
concatenated in that order. -/
def Chunk.as_bytes (c : Chunk) : List Nat :=
  u32_to_be c.length ++ c.chunk_type.bytes ++ c.chunk_data ++ u32_to_be c.crc

/-- Errors raised while decoding a chunk (chunk.rs `ChunkDecodingError`):
`BadCrc` carries the supplied and the expected checksum, `BadLength` a
mismatched or truncated length, `LongLength` a declared length of at least
2^31 (chunk.rs `MAXIMUM_LENGTH`). -/
inductive ChunkDecodingError where
  | BadCrc (provided expected : Nat)
  | BadLength (provided expected : Nat)
  | LongLength (n : Nat)
deriving DecidableEq

/-- The boxed error type returned by the chunk decoder (`crate::Error`):
either a chunk-level decoding error or a chunk-type decoding error
propagated from `ChunkType` construction. -/
inductive PngError where
  | chunkErr (e : ChunkDecodingError)
  | typeErr (e : ChunkTypeDecodingError)
deriving DecidableEq

/-- Modelled from the spec: the body of `TryFrom<&[u8]> for Chunk`
(chunk.rs lines 94-100) is an empty placeholder in the source, so this
decoder follows the algorithm of spec section 4.2 step by step:
(1) read the first four bytes as the big-endian declared length;
(2) fail with `LongLength` if that length is at least 2^31, before any
further parsing; (3) read the next four bytes and build the `ChunkType`,
propagating its error; (4) take the next `length` bytes as the data,
failing if fewer remain; (5) read the following four bytes as the supplied
big-endian checksum; (6) compute the expected `CRC_32_CKSUM` over type
bytes then data bytes; (7) fail with `BadCrc supplied expected` when they
differ; (8) otherwise return the chunk, ignoring any trailing bytes.
Truncation failures use `BadLength` with the available and the required
byte counts, the closest variant the source error type offers to the
spec's TruncatedBuffer kind. -/
def Chunk.try_from (bs : List Nat) : Except PngError Chunk :=
  match bs with
  | l0 :: l1 :: l2 :: l3 :: rest =>
    if 2147483648 ≤ be4 l0 l1 l2 l3 then
      .error (.chunkErr (.LongLength (be4 l0 l1 l2 l3)))
    else
      match rest with
      | t0 :: t1 :: t2 :: t3 :: rest2 =>
        match ChunkType.try_from4 t0 t1 t2 t3 with
        | .error e => .error (.typeErr e)
        | .ok ct =>
          if rest2.length < be4 l0 l1 l2 l3 then
            .error (.chunkErr (.BadLength rest2.length (be4 l0 l1 l2 l3)))
          else
            match rest2.drop (be4 l0 l1 l2 l3) with
            | c0 :: c1 :: c2 :: c3 :: _ =>
              if be4 c0 c1 c2 c3 = crc32_cksum (ct.bytes ++ rest2.take (be4 l0 l1 l2 l3)) then
                .ok ⟨be4 l0 l1 l2 l3, ct, rest2.take (be4 l0 l1 l2 l3), be4 c0 c1 c2 c3⟩
              else
                .error (.chunkErr (.BadCrc (be4 c0 c1 c2 c3)
                  (crc32_cksum (ct.bytes ++ rest2.take (be4 l0 l1 l2 l3)))))
            | _ =>
              .error (.chunkErr (.BadLength bs.length (12 + be4 l0 l1 l2 l3)))
      | _ => .error (.chunkErr (.BadLength bs.length 8))
  | _ => .error (.chunkErr (.BadLength bs.length 4))

/-- The 42 ASCII bytes of the message used by the repository's tests. -/
def secret_message : List Nat :=
  [84, 104, 105, 115, 32, 105, 115, 32, 119, 104, 101, 114, 101, 32, 121, 111,
   117, 114, 32, 115, 101, 99, 114, 101, 116, 32, 109, 101, 115, 115, 97, 103,
   101, 32, 119, 105, 108, 108, 32, 98, 101, 33]

/-- The 54-byte test buffer of the repository's tests: big-endian length 42,
the type bytes of RuSt, the 42-byte message, and the big-endian checksum
2882656334. -/
def test_buffer : List Nat :=
  [0, 0, 0, 42] ++ [82, 117, 83, 116] ++ secret_message ++ [171, 209, 216, 78]

/-- The same buffer with the off-by-one checksum 2882656333. -/
def test_buffer_bad_crc : List Nat :=
  [0, 0, 0, 42] ++ [82, 117, 83, 116] ++ secret_message ++ [171, 209, 216, 77]

/-- The test buffer carrying the checksum the code actually computes
(`CRC_32_CKSUM` of the type and data bytes, 499110230 = 0x1DBFD156 in
big-endian bytes 29, 191, 209, 86). -/
def test_buffer_cksum : List Nat :=
  [0, 0, 0, 42] ++ [82, 117, 83, 116] ++ secret_message ++ [29, 191, 209, 86]

/-- Big-endian decomposition then recomposition is the identity on 32-bit
values. -/
lemma be4_u32_to_be {n : Nat} (h : n < 4294967296) :
    be4 (n / 16777216 % 256) (n / 65536 % 256) (n / 256 % 256) (n % 256) = n := by
  unfold be4
  omega

/-- Big-endian recomposition then decomposition is the identity on byte
quadruples. -/
lemma u32_to_be_be4 {a b c d : Nat} (ha : a < 256) (hb : b < 256) (hc : c < 256)
    (hd : d < 256) : u32_to_be (be4 a b c d) = [a, b, c, d] := by
  unfold u32_to_be be4
  simp only [List.cons.injEq, and_true]
  refine ⟨by omega, by omega, by omega, by omega⟩

lemma u32_to_be_length (n : Nat) : (u32_to_be n).length = 4 := by
  unfold u32_to_be
  simp

lemma u32_to_be_lt (n : Nat) : ∀ x ∈ u32_to_be n, x < 256 := by
  unfold u32_to_be
  intro x hx
  simp at hx
  rcases hx with h | h | h | h <;> omega

/-- One CRC shift step always yields a 32-bit value. -/
lemma crc32_shift_lt (c : Nat) : crc32_shift c < 4294967296 := by
  unfold crc32_shift
  split
  · exact (by norm_num : (2 : Nat) ^ 32 = 4294967296) ▸
      Nat.xor_lt_two_pow (by omega) (by norm_num)
  · omega

lemma crc32_bits_lt (n : Nat) : ∀ c, c < 4294967296 → crc32_bits n c < 4294967296 := by
  induction n with
  | zero => intro c hc; exact hc
  | succ n ih => intro c _; exact ih _ (crc32_shift_lt c)

lemma crc32_update_lt (c b : Nat) : crc32_update c b < 4294967296 := by
  unfold crc32_update
  have h : ((c ^^^ (b * 16777216)) % 4294967296) < 4294967296 := by omega
  exact crc32_bits_lt 8 _ h

lemma crc32_foldl_lt (bs : List Nat) : ∀ s, s < 4294967296 →
    bs.foldl crc32_update s < 4294967296 := by
  induction bs with
  | nil => intro s hs; exact hs
  | cons b bs ih =>
    intro s _
    rw [List.foldl_cons]
    exact ih _ (crc32_update_lt s b)

/-- The CKSUM checksum is always a 32-bit value. -/
lemma crc32_cksum_lt (bs : List Nat) : crc32_cksum bs < 4294967296 := by
  unfold crc32_cksum
  have h1 : bs.foldl crc32_update 0 < 2 ^ 32 := by
    have := crc32_foldl_lt bs 0 (by norm_num)
    omega
  exact (by norm_num : (2 : Nat) ^ 32 = 4294967296) ▸
    Nat.xor_lt_two_pow h1 (by norm_num)

lemma utf8Step_ascii (b : Nat) (rest : List Nat) (hb : b ≤ 127) :
    utf8Step (b :: rest) = some (Char.ofNat b, rest) := by
  unfold utf8Step
  dsimp only
  rw [if_pos hb]

lemma utf8DecodeF_ascii : ∀ f : Nat, ∀ bs : List Nat, bs.length ≤ f →
    (∀ x ∈ bs, x ≤ 127) → utf8DecodeF f bs = some (bs.map Char.ofNat) := by
  intro f
  induction f with
  | zero =>
    intro bs hlen _
    cases bs with
    | nil => rfl
    | cons b rest => simp at hlen
  | succ f ih =>
    intro bs hlen h
    cases bs with
    | nil => rfl
    | cons b rest =>
      have hb : b ≤ 127 := h b (by simp)
      simp only [utf8DecodeF]
      rw [utf8Step_ascii b rest hb]
      dsimp only
      rw [ih rest (by simp at hlen; omega) (fun x hx => h x (by simp [hx]))]
      rfl

/-- A sequence of ASCII bytes always decodes as UTF-8, one character per
byte. -/
lemma utf8Decode_ascii (bs : List Nat) (h : ∀ x ∈ bs, x ≤ 127) :
    utf8Decode bs = some (bs.map Char.ofNat) :=
  utf8DecodeF_ascii bs.length bs le_rfl h

/-- Inversion of a successful `ChunkType.try_from4`: the bytes are stored as
given and every byte is an ASCII letter. -/
lemma ChunkType.try_from4_ok {a b c d : Nat} {t : ChunkType}
    (h : ChunkType.try_from4 a b c d = .ok t) :
    t = ⟨a, b, c, d⟩ ∧ ChunkType.is_valid_byte a = true ∧ ChunkType.is_valid_byte b = true ∧
      ChunkType.is_valid_byte c = true ∧ ChunkType.is_valid_byte d = true := by
  unfold ChunkType.try_from4 at h
  split_ifs at h with h1 h2 h3 h4
  all_goals simp_all

/-- Four ASCII letters always build a `ChunkType`. -/
lemma ChunkType.try_from4_of_valid {a b c d : Nat}
    (ha : ChunkType.is_valid_byte a = true) (hb : ChunkType.is_valid_byte b = true)
    (hc : ChunkType.is_valid_byte c = true) (hd : ChunkType.is_valid_byte d = true) :
    ChunkType.try_from4 a b c d = .ok ⟨a, b, c, d⟩ := by
  unfold ChunkType.try_from4
  simp [ha, hb, hc, hd]

/-- Decoding succeeds on every well-formed buffer: a length field below 2^31,
a valid type code, exactly as many data bytes as declared, the matching
checksum, and arbitrary trailing bytes. -/
lemma Chunk.try_from_ok_gen (l0 l1 l2 l3 : Nat) (t : ChunkType) (data : List Nat)
    (cr0 cr1 cr2 cr3 : Nat) (trailing : List Nat)
    (hval : ChunkType.try_from4 t.b0 t.b1 t.b2 t.b3 = .ok t)
    (hlen : be4 l0 l1 l2 l3 < 2147483648)
    (hdata : data.length = be4 l0 l1 l2 l3)
    (hcrc : be4 cr0 cr1 cr2 cr3 = crc32_cksum (t.bytes ++ data)) :
    Chunk.try_from
      (l0 :: l1 :: l2 :: l3 :: t.b0 :: t.b1 :: t.b2 :: t.b3 ::
        (data ++ cr0 :: cr1 :: cr2 :: cr3 :: trailing))
      = .ok ⟨be4 l0 l1 l2 l3, t, data, be4 cr0 cr1 cr2 cr3⟩ := by
  unfold Chunk.try_from
  dsimp only
  rw [if_neg (by omega)]
  rw [hval]
  dsimp only
  have hle : ¬ ((data ++ cr0 :: cr1 :: cr2 :: cr3 :: trailing).length < be4 l0 l1 l2 l3) := by
    simp [List.length_append, hdata]
  rw [if_neg hle]
  rw [List.drop_left' hdata, List.take_left' hdata]
  dsimp only
  rw [if_pos hcrc]

/-- Inversion of a successful decode: the buffer splits into the length
field, the type bytes, the data, the checksum field and trailing bytes, and
the resulting chunk's fields satisfy the decoder's checks. -/
lemma Chunk.try_from_inv {bs : List Nat} {c : Chunk} (h : Chunk.try_from bs = .ok c) :
    ∃ l0 l1 l2 l3 cr0 cr1 cr2 cr3 trailing,
      bs = l0 :: l1 :: l2 :: l3 :: c.chunk_type.b0 :: c.chunk_type.b1 :: c.chunk_type.b2 ::
        c.chunk_type.b3 :: (c.chunk_data ++ cr0 :: cr1 :: cr2 :: cr3 :: trailing) ∧
      be4 l0 l1 l2 l3 = c.length ∧
      be4 cr0 cr1 cr2 cr3 = c.crc ∧
      c.length < 2147483648 ∧
      c.chunk_data.length = c.length ∧
      ChunkType.try_from4 c.chunk_type.b0 c.chunk_type.b1 c.chunk_type.b2 c.chunk_type.b3
        = .ok c.chunk_type ∧
      c.crc = crc32_cksum (c.chunk_type.bytes ++ c.chunk_data) := by
  unfold Chunk.try_from at h
  split at h
  case h_2 => exact absurd h (by simp)
  case h_1 l0 l1 l2 l3 rest =>
    split at h
    · exact absurd h (by simp)
    next hlen =>
      split at h
      case h_2 => exact absurd h (by simp)
      case h_1 t0 t1 t2 t3 rest2 =>
        split at h
        case h_1 e heq => exact absurd h (by simp)
        case h_2 ct heq =>
          split at h
          · exact absurd h (by simp)
          next hge =>
            split at h
            case h_2 => exact absurd h (by simp)
            case h_1 cr0 cr1 cr2 cr3 tail hdrop =>
              split at h
              case isFalse => exact absurd h (by simp)
              case isTrue hcrc =>
                injection h with hc
                subst hc
                obtain ⟨hct, ha, hb2, hc2, hd2⟩ := ChunkType.try_from4_ok heq
                refine ⟨l0, l1, l2, l3, cr0, cr1, cr2, cr3, tail, ?_, rfl, rfl,
                  by dsimp only; omega, ?_, ?_, ?_⟩
                · dsimp only
                  rw [hct]
                  dsimp only
                  rw [← hdrop, List.take_append_drop]
                · dsimp only
                  rw [List.length_take]
                  omega
                · dsimp only
                  rw [hct]
                  exact ChunkType.try_from4_of_valid ha hb2 hc2 hd2
                · dsimp only
                  exact hcrc

/-- Re-serializing a decoded chunk yields a buffer that decodes to the same
chunk. -/
lemma Chunk.try_from_as_bytes {bs : List Nat} {c : Chunk} (h : Chunk.try_from bs = .ok c) :
    Chunk.try_from c.as_bytes = .ok c := by
  obtain ⟨l0, l1, l2, l3, cr0, cr1, cr2, cr3, trailing, hbs, hl, hcr, hlt, hlen, hval, hcrc⟩ :=
    Chunk.try_from_inv h
  have hc32 : c.crc < 4294967296 := hcrc ▸ crc32_cksum_lt _
  have hl32 : c.length < 4294967296 := by omega
  have hkey := Chunk.try_from_ok_gen
    (c.length / 16777216 % 256) (c.length / 65536 % 256) (c.length / 256 % 256) (c.length % 256)
    c.chunk_type c.chunk_data
    (c.crc / 16777216 % 256) (c.crc / 65536 % 256) (c.crc / 256 % 256) (c.crc % 256)
    [] hval (by rw [be4_u32_to_be hl32]; exact hlt) (by rw [be4_u32_to_be hl32]; exact hlen)
    (by rw [be4_u32_to_be hc32]; exact hcrc)
  rw [be4_u32_to_be hl32, be4_u32_to_be hc32] at hkey
  have habs : Chunk.as_bytes c =
      (c.length / 16777216 % 256) :: (c.length / 65536 % 256) :: (c.length / 256 % 256)
        :: (c.length % 256) :: c.chunk_type.b0 :: c.chunk_type.b1 :: c.chunk_type.b2
        :: c.chunk_type.b3 :: (c.chunk_data ++ (c.crc / 16777216 % 256) :: (c.crc / 65536 % 256)
        :: (c.crc / 256 % 256) :: (c.crc % 256) :: []) := by
    unfold Chunk.as_bytes u32_to_be ChunkType.bytes
    simp
  rw [habs, hkey]

lemma Chunk.try_from_append {bs : List Nat} {c : Chunk} (extra : List Nat)
    (h : Chunk.try_from bs = .ok c) : Chunk.try_from (bs ++ extra) = .ok c := by
  obtain ⟨l0, l1, l2, l3, cr0, cr1, cr2, cr3, trailing, hbs, hl, hcr, hlt, hlen, hval, hcrc⟩ :=
    Chunk.try_from_inv h
  subst hbs
  have hkey := Chunk.try_from_ok_gen l0 l1 l2 l3 c.chunk_type c.chunk_data
    cr0 cr1 cr2 cr3 (trailing ++ extra) hval (by rw [hl]; exact hlt) (by rw [hl]; exact hlen)
    (by rw [hcr, hcrc])
  rw [hl, hcr] at hkey
  have hshape :
      (l0 :: l1 :: l2 :: l3 :: c.chunk_type.b0 :: c.chunk_type.b1 :: c.chunk_type.b2 ::
        c.chunk_type.b3 :: (c.chunk_data ++ cr0 :: cr1 :: cr2 :: cr3 :: trailing)) ++ extra =
      l0 :: l1 :: l2 :: l3 :: c.chunk_type.b0 :: c.chunk_type.b1 :: c.chunk_type.b2 ::
        c.chunk_type.b3 :: (c.chunk_data ++ cr0 :: cr1 :: cr2 :: cr3 :: (trailing ++ extra)) := by
    simp
  rw [hshape, hkey]

lemma Chunk.as_bytes_eq {bs : List Nat} {c : Chunk} (h : Chunk.try_from bs = .ok c)
    (hb : ∀ x ∈ bs, x < 256) (hbl : bs.length = 12 + c.length) : Chunk.as_bytes c = bs := by
  obtain ⟨l0, l1, l2, l3, cr0, cr1, cr2, cr3, trailing, hbs, hl, hcr, hlt, hlen, hval, hcrc⟩ :=
    Chunk.try_from_inv h
  subst hbs
  have htr : trailing = [] := by
    rw [List.length_cons, List.length_cons, List.length_cons, List.length_cons,
      List.length_cons, List.length_cons, List.length_cons, List.length_cons,
      List.length_append, List.length_cons, List.length_cons, List.length_cons,
      List.length_cons, hlen] at hbl
    have : trailing.length = 0 := by omega
    exact List.length_eq_zero.mp this
  subst htr
  have hl0 : l0 < 256 := hb l0 (by simp)
  have hl1 : l1 < 256 := hb l1 (by simp)
  have hl2 : l2 < 256 := hb l2 (by simp)
  have hl3 : l3 < 256 := hb l3 (by simp)
  have hcr0 : cr0 < 256 := hb cr0 (by simp)
  have hcr1 : cr1 < 256 := hb cr1 (by simp)
  have hcr2 : cr2 < 256 := hb cr2 (by simp)
  have hcr3 : cr3 < 256 := hb cr3 (by simp)
  unfold Chunk.as_bytes ChunkType.bytes
  rw [← hl, ← hcr, u32_to_be_be4 hl0 hl1 hl2 hl3, u32_to_be_be4 hcr0 hcr1 hcr2 hcr3]
  simp

deriving instance DecidableEq for Except

/-- An ASCII code point round-trips through `Char.ofNat`. -/
lemma char_toNat_ofNat_ascii {x : Nat} (h : x ≤ 127) : (Char.ofNat x).toNat = x := by
  have hv : x.isValidChar := Or.inl (by omega)
  unfold Char.ofNat
  rw [dif_pos hv]
  show (Char.ofNatAux x hv).toNat = x
  unfold Char.ofNatAux Char.toNat
  rfl

/-- The `try_from4` scan fails with the first invalid byte, as located by
`List.find?`. -/
lemma ChunkType.try_from4_first_bad {a b c d x : Nat}
    (h : [a, b, c, d].find? (fun y => ! ChunkType.is_valid_byte y) = some x) :
    ChunkType.try_from4 a b c d = .error (.BadByte x) := by
  unfold ChunkType.try_from4
  cases h0 : ChunkType.is_valid_byte a <;> cases h1 : ChunkType.is_valid_byte b <;>
    cases h2 : ChunkType.is_valid_byte c <;> cases h3 : ChunkType.is_valid_byte d <;>
    simp_all [List.find?]

/-- The `try_from4` scan succeeds exactly on four ASCII letters. -/
lemma ChunkType.try_from4_ok_iff (a b c d : Nat) :
    ChunkType.try_from4 a b c d = .ok ⟨a, b, c, d⟩ ↔
      [a, b, c, d].all ChunkType.is_valid_byte = true := by
  unfold ChunkType.try_from4
  cases h0 : ChunkType.is_valid_byte a <;> cases h1 : ChunkType.is_valid_byte b <;>
    cases h2 : ChunkType.is_valid_byte c <;> cases h3 : ChunkType.is_valid_byte d <;>
    simp_all

/-- C1: for every byte buffer from which a chunk decodes successfully,
re-serializing the decoded chunk and decoding the result yields the same
chunk field-wise; decoding also succeeds, with the same result, on the
buffer extended by arbitrary trailing bytes; and when the buffer consists of
genuine bytes and contains nothing beyond the single chunk (its size is
exactly 12 plus the data length), re-serializing reproduces the buffer
exactly. -/
theorem chunk_decode_encode_roundtrip (bs extra : List Nat) (c : Chunk)
    (h : Chunk.try_from bs = .ok c) :
    Chunk.try_from c.as_bytes = .ok c ∧
    Chunk.try_from (bs ++ extra) = .ok c ∧
    ((∀ x ∈ bs, x < 256) → bs.length = 12 + c.length → c.as_bytes = bs) :=
  ⟨Chunk.try_from_as_bytes h, Chunk.try_from_append extra h,
    fun hb hl => Chunk.as_bytes_eq h hb hl⟩

/-- Witness for C1 at the repository's test data carrying the checksum the
code computes. -/
theorem chunk_decode_encode_roundtrip_witness :
    Chunk.try_from (Chunk.as_bytes ⟨42, ⟨82, 117, 83, 116⟩, secret_message, 499110230⟩) =
      .ok ⟨42, ⟨82, 117, 83, 116⟩, secret_message, 499110230⟩ ∧
    Chunk.try_from (test_buffer_cksum ++ [7]) =
      .ok ⟨42, ⟨82, 117, 83, 116⟩, secret_message, 499110230⟩ ∧
    Chunk.as_bytes ⟨42, ⟨82, 117, 83, 116⟩, secret_message, 499110230⟩ = test_buffer_cksum := by
  have h := chunk_decode_encode_roundtrip test_buffer_cksum [7]
    ⟨42, ⟨82, 117, 83, 116⟩, secret_message, 499110230⟩ (by decide)
  exact ⟨h.1, h.2.1, h.2.2 (by decide) (by decide)⟩

/-- C2 (at the failing input): the decoder, following the code's choice of
CRC_32_CKSUM, computes expected checksum 499110230 for the RuSt test data,
so the 54-byte buffer with checksum 2882656333 is rejected with a checksum
mismatch carrying expected value 499110230 — not 2882656334 as the claim
and the repository's own tests demand. -/
theorem chunk_decode_crc_mismatch_at_test_buffer :
    Chunk.try_from test_buffer_bad_crc = .error (.chunkErr (.BadCrc 2882656333 499110230)) ∧
    crc32_cksum ([82, 117, 83, 116] ++ secret_message) = 499110230 ∧
    (499110230 : Nat) ≠ 2882656334 := by decide

/-- C4 (at the failing input): the 54-byte test buffer carrying checksum
2882656334 (the PNG CRC-32/ISO-HDLC value asserted by the repository's
tests) is rejected by the decoder because the code's CRC_32_CKSUM
parameterization yields 499110230, and `Chunk::new` on the same type and
data likewise stores CRC 499110230 while the tests assert 2882656334. -/
theorem chunk_decode_test_buffer_rejected :
    Chunk.try_from test_buffer = .error (.chunkErr (.BadCrc 2882656334 499110230)) ∧
    (Chunk.new ⟨82, 117, 83, 116⟩ secret_message).length = 42 ∧
    (Chunk.new ⟨82, 117, 83, 116⟩ secret_message).crc = 499110230 := by decide

/-- Counterexample to C3 as stated: the claim says the code RuSt has
safe-to-copy = false, but bit 5 of the fourth byte 116 is one, so
`is_safe_to_copy` returns true. -/
theorem chunk_type_safe_to_copy_counterexample :
    ¬ ((ChunkType.from_str [82, 117, 83, 116]).map ChunkType.is_safe_to_copy = .ok false) := by
  decide

/-- C3 (amended): the flag queries on the five test codes return, for RuSt,
critical = true, public = false, reserved-valid = true, safe-to-copy = true;
for ruSt the same except critical = false; RUSt is public; Rust has an
invalid reserved bit; and RuST is not safe to copy (safe-to-copy follows
bit 5 of the fourth byte being one, so the lowercase final letter is the
safe-to-copy case). -/
theorem chunk_type_flag_queries :
    (ChunkType.from_str [82, 117, 83, 116]).map
        (fun t => (t.is_critical, t.is_public, t.is_reserved_bit_valid, t.is_safe_to_copy))
      = .ok (true, false, true, true) ∧
    (ChunkType.from_str [114, 117, 83, 116]).map
        (fun t => (t.is_critical, t.is_public, t.is_reserved_bit_valid, t.is_safe_to_copy))
      = .ok (false, false, true, true) ∧
    (ChunkType.from_str [82, 85, 83, 116]).map ChunkType.is_public = .ok true ∧
    (ChunkType.from_str [82, 117, 115, 116]).map ChunkType.is_reserved_bit_valid = .ok false ∧
    (ChunkType.from_str [82, 117, 83, 84]).map ChunkType.is_safe_to_copy = .ok false := by
  decide

/-- C5: whenever the first four bytes of the buffer declare a length of at
least 2^31, decoding fails with the length-too-large error carrying the
declared length, regardless of everything after the length field — the
check precedes all further parsing. -/
theorem chunk_decode_length_too_large (l0 l1 l2 l3 : Nat) (rest : List Nat)
    (h : 2147483648 ≤ be4 l0 l1 l2 l3) :
    Chunk.try_from (l0 :: l1 :: l2 :: l3 :: rest) =
      .error (.chunkErr (.LongLength (be4 l0 l1 l2 l3))) := by
  unfold Chunk.try_from
  dsimp only
  rw [if_pos h]

/-- Witness for C5: a buffer declaring length 2^31 with nothing after the
length field is rejected outright. -/
theorem chunk_decode_length_too_large_witness :
    Chunk.try_from [128, 0, 0, 0] = .error (.chunkErr (.LongLength 2147483648)) := by
  have h := chunk_decode_length_too_large 128 0 0 0 [] (by decide)
  exact h

/-- C6: construction of a chunk type code from four bytes succeeds (storing
exactly those bytes) if and only if every byte is an ASCII letter; on
failure the error carries the first offending byte in left-to-right scan
order; construction from a string's bytes behaves the same after first
rejecting any length other than four with the actual length; and the code
Ru1t is rejected with the byte value 49. -/
theorem chunk_type_construction_gate (b0 b1 b2 b3 : Nat) (s : List Nat) :
    (ChunkType.try_from4 b0 b1 b2 b3 = .ok ⟨b0, b1, b2, b3⟩ ↔
      [b0, b1, b2, b3].all ChunkType.is_valid_byte = true) ∧
    (∀ x, [b0, b1, b2, b3].find? (fun y => ! ChunkType.is_valid_byte y) = some x →
      ChunkType.try_from4 b0 b1 b2 b3 = .error (.BadByte x)) ∧
    (s.length ≠ 4 → ChunkType.from_str s = .error (.BadLength s.length)) ∧
    (s.length = 4 → s.all ChunkType.is_valid_byte = true →
      ∃ t, ChunkType.from_str s = .ok t ∧ t.bytes = s) ∧
    (s.length = 4 → ∀ x, s.find? (fun y => ! ChunkType.is_valid_byte y) = some x →
      ChunkType.from_str s = .error (.BadByte x)) ∧
    ChunkType.from_str [82, 117, 49, 116] = .error (.BadByte 49) := by
  refine ⟨ChunkType.try_from4_ok_iff b0 b1 b2 b3,
    fun x hx => ChunkType.try_from4_first_bad hx, ?_, ?_, ?_, by decide⟩
  · intro hne
    rcases s with _ | ⟨a, _ | ⟨b, _ | ⟨c, _ | ⟨d, _ | ⟨e, rest⟩⟩⟩⟩⟩
    · rfl
    · rfl
    · rfl
    · rfl
    · exact absurd rfl hne
    · rfl
  · intro hlen hall
    rcases s with _ | ⟨a, _ | ⟨b, _ | ⟨c, _ | ⟨d, _ | ⟨e, rest⟩⟩⟩⟩⟩
    · simp at hlen
    · simp at hlen
    · simp at hlen
    · simp at hlen
    · exact ⟨⟨a, b, c, d⟩, (ChunkType.try_from4_ok_iff a b c d).mpr hall, rfl⟩
    · simp at hlen
  · intro hlen x hx
    rcases s with _ | ⟨a, _ | ⟨b, _ | ⟨c, _ | ⟨d, _ | ⟨e, rest⟩⟩⟩⟩⟩
    · simp at hlen
    · simp at hlen
    · simp at hlen
    · simp at hlen
    · exact ChunkType.try_from4_first_bad hx
    · simp at hlen

/-- Witness for C6: a two-byte string is rejected with its length, Ru1t is
rejected with byte 49 (also through the fixed-array constructor), and RuSt
is accepted with its bytes stored. -/
theorem chunk_type_construction_gate_witness :
    ChunkType.from_str [82, 117] = .error (.BadLength 2) ∧
    ChunkType.try_from4 82 117 49 116 = .error (.BadByte 49) ∧
    (∃ t, ChunkType.from_str [82, 117, 83, 116] = .ok t ∧ t.bytes = [82, 117, 83, 116]) := by
  refine ⟨(chunk_type_construction_gate 82 117 49 116 [82, 117]).2.2.1 (by decide),
    (chunk_type_construction_gate 82 117 49 116 [82, 117]).2.1 49 (by decide),
    (chunk_type_construction_gate 82 117 83 116 [82, 117, 83, 116]).2.2.2.1
      (by decide) (by decide)⟩

/-- The serialized form of a chunk as one explicit byte list. -/
lemma Chunk.as_bytes_cons (c : Chunk) :
    c.as_bytes = (c.length / 16777216 % 256) :: (c.length / 65536 % 256) :: (c.length / 256 % 256)
      :: (c.length % 256) :: c.chunk_type.b0 :: c.chunk_type.b1 :: c.chunk_type.b2
      :: c.chunk_type.b3 :: (c.chunk_data ++ (c.crc / 16777216 % 256) :: (c.crc / 65536 % 256)
      :: (c.crc / 256 % 256) :: (c.crc % 256) :: []) := by
  unfold Chunk.as_bytes u32_to_be ChunkType.bytes
  simp

/-- C7: serialization is a total function producing, in order, the
big-endian length field, the four type bytes, the data bytes, and the
big-endian checksum; its size is 12 plus the number of data bytes (equal to
12 plus the length field whenever that field agrees with the data size),
and the four sections are recovered at their offsets. -/
theorem chunk_as_bytes_layout (c : Chunk) :
    c.as_bytes = u32_to_be c.length ++ c.chunk_type.bytes ++ c.chunk_data ++ u32_to_be c.crc ∧
    c.as_bytes.length = 12 + c.chunk_data.length ∧
    c.as_bytes.take 4 = u32_to_be c.length ∧
    (c.as_bytes.drop 4).take 4 = c.chunk_type.bytes ∧
    (c.as_bytes.drop 8).take c.chunk_data.length = c.chunk_data ∧
    c.as_bytes.drop (8 + c.chunk_data.length) = u32_to_be c.crc ∧
    (c.length = c.chunk_data.length → c.as_bytes.length = 12 + c.length) := by
  have h8 : c.as_bytes = ((c.length / 16777216 % 256) :: (c.length / 65536 % 256)
      :: (c.length / 256 % 256) :: (c.length % 256) :: c.chunk_type.b0 :: c.chunk_type.b1
      :: c.chunk_type.b2 :: c.chunk_type.b3 :: c.chunk_data) ++ u32_to_be c.crc := by
    rw [Chunk.as_bytes_cons]
    unfold u32_to_be
    simp
  refine ⟨rfl, ?_, ?_, ?_, ?_, ?_, ?_⟩
  · rw [Chunk.as_bytes_cons]
    simp [List.length_append]
    omega
  · rw [Chunk.as_bytes_cons]
    rfl
  · rw [Chunk.as_bytes_cons]
    rfl
  · rw [Chunk.as_bytes_cons]
    show (c.chunk_data ++ _).take c.chunk_data.length = c.chunk_data
    exact List.take_left' rfl
  · rw [h8]
    refine List.drop_left' ?_
    simp
    omega
  · intro h
    rw [Chunk.as_bytes_cons]
    simp [List.length_append]
    omega

/-- The length field stored by the constructor, in closed form. -/
lemma Chunk.new_length (t : ChunkType) (d : List Nat) :
    (Chunk.new t d).length = d.length % 4294967296 := rfl

/-- Counterexample to C8 as stated: for a data sequence of 2^32 + 1 bytes
the constructor's `as u32` cast truncates, so the stored length field is 1,
not the data length. -/
theorem chunk_new_length_counterexample :
    (Chunk.new ⟨82, 117, 83, 116⟩ (List.replicate 4294967297 0)).length ≠
      (List.replicate 4294967297 0).length := by
  rw [Chunk.new_length, List.length_replicate]
  omega

/-- C8 (amended): `Chunk::new` always succeeds on any type code and data,
performing no validation of the length against the 2^31 ceiling: it stores
the data unchanged, the length field as the data length reduced modulo 2^32
(equal to the data length whenever it is below 2^32), and the checksum as
CRC_32_CKSUM over the type bytes followed by the data; the checksum is a
pure function of the type bytes and the data. -/
theorem chunk_new_fields (t t2 : ChunkType) (d d2 : List Nat) :
    (Chunk.new t d).length = d.length % 4294967296 ∧
    (d.length < 4294967296 → (Chunk.new t d).length = d.length) ∧
    (Chunk.new t d).chunk_type = t ∧
    (Chunk.new t d).chunk_data = d ∧
    (Chunk.new t d).crc = crc32_cksum (t.bytes ++ d) ∧
    (t.bytes = t2.bytes → d = d2 → (Chunk.new t d).crc = (Chunk.new t2 d2).crc) := by
  refine ⟨rfl, fun h => ?_, rfl, rfl, rfl, fun hbt hd => ?_⟩
  · show d.length % 4294967296 = d.length
    omega
  · subst hd
    show crc32_cksum (t.bytes ++ d) = crc32_cksum (t2.bytes ++ d)
    rw [hbt]

/-- Witness for C8 at a small concrete input. -/
theorem chunk_new_fields_witness :
    (Chunk.new ⟨82, 117, 83, 116⟩ [1, 2, 3]).length = [1, 2, 3].length ∧
    (Chunk.new ⟨82, 117, 83, 116⟩ [1, 2, 3]).crc = (Chunk.new ⟨82, 117, 83, 116⟩ [1, 2, 3]).crc := by
  have h := chunk_new_fields ⟨82, 117, 83, 116⟩ ⟨82, 117, 83, 116⟩ [1, 2, 3] [1, 2, 3]
  exact ⟨h.2.1 (by decide), h.2.2.2.2.2 rfl rfl⟩

/-- C9: every successfully constructed chunk type code renders as text
without reaching the panic branch, the text being exactly its four bytes
read as ASCII characters, and those characters map back to the stored
bytes. -/
theorem chunk_type_render_total (t : ChunkType)
    (h : (∃ a b c d, ChunkType.try_from4 a b c d = .ok t) ∨
      (∃ s, ChunkType.from_str s = .ok t)) :
    t.render = some (String.mk (t.bytes.map Char.ofNat)) ∧
    (String.mk (t.bytes.map Char.ofNat)).data.map Char.toNat = t.bytes := by
  have hv : ∀ x ∈ t.bytes, ChunkType.is_valid_byte x = true := by
    rcases h with ⟨a, b, c, d, hab⟩ | ⟨s, hs⟩
    · obtain ⟨ht, ha, hb, hc, hd⟩ := ChunkType.try_from4_ok hab
      subst ht
      intro x hx
      simp [ChunkType.bytes] at hx
      rcases hx with rfl | rfl | rfl | rfl <;> assumption
    · unfold ChunkType.from_str at hs
      split at hs
      case h_1 a b c d =>
        obtain ⟨ht, ha, hb, hc, hd⟩ := ChunkType.try_from4_ok hs
        subst ht
        intro x hx
        simp [ChunkType.bytes] at hx
        rcases hx with rfl | rfl | rfl | rfl <;> assumption
      case h_2 => exact absurd hs (by simp)
  have hle : ∀ x ∈ t.bytes, x ≤ 127 := by
    intro x hx
    have hx2 := hv x hx
    unfold ChunkType.is_valid_byte at hx2
    simp at hx2
    omega
  constructor
  · unfold ChunkType.render
    rw [utf8Decode_ascii t.bytes hle]
  · show (t.bytes.map Char.ofNat).map Char.toNat = t.bytes
    rw [List.map_map]
    conv_rhs => rw [← List.map_id t.bytes]
    refine List.map_congr_left ?_
    intro x hx
    exact char_toNat_ofNat_ascii (hle x hx)

/-- Witness for C9 at the code RuSt. -/
theorem chunk_type_render_total_witness :
    ChunkType.render ⟨82, 117, 83, 116⟩ =
      some (String.mk (([82, 117, 83, 116] : List Nat).map Char.ofNat)) := by
  have h := chunk_type_render_total ⟨82, 117, 83, 116⟩
    (Or.inl ⟨82, 117, 83, 116, by decide⟩)
  exact h.1

/-- C10: the length field stored by `Chunk::new` is the data length reduced
modulo 2^32; it equals the data length exactly on data shorter than 2^32
bytes, and differs from it on any longer data. -/
theorem chunk_new_length_truncation (t : ChunkType) (d : List Nat) :
    (Chunk.new t d).length = d.length % 4294967296 ∧
    (d.length < 4294967296 → (Chunk.new t d).length = d.length) ∧
    (4294967296 ≤ d.length → (Chunk.new t d).length ≠ d.length) := by
  refine ⟨rfl, fun h => ?_, fun h => ?_⟩
  · show d.length % 4294967296 = d.length
    omega
  · show d.length % 4294967296 ≠ d.length
    omega

/-- Witness for C10: truncation at 2^32 zero bytes, exactness at one byte. -/
theorem chunk_new_length_truncation_witness :
    (Chunk.new ⟨82, 117, 83, 116⟩ (List.replicate 4294967296 0)).length ≠
      (List.replicate 4294967296 0).length ∧
    (Chunk.new ⟨82, 117, 83, 116⟩ [5]).length = [5].length := by
  have hrep : (List.replicate 4294967296 (0 : Nat)).length = 4294967296 :=
    List.length_replicate _ _
  constructor
  · exact (chunk_new_length_truncation ⟨82, 117, 83, 116⟩ (List.replicate 4294967296 0)).2.2
      (le_of_eq hrep.symm)
  · exact (chunk_new_length_truncation ⟨82, 117, 83, 116⟩ [5]).2.1 (by decide)

/-- Witness for C7 at a small concrete chunk. -/
theorem chunk_as_bytes_layout_witness :
    (Chunk.as_bytes ⟨3, ⟨82, 117, 83, 116⟩, [9, 8, 7], 5⟩).length = 12 + 3 ∧
    Chunk.as_bytes ⟨3, ⟨82, 117, 83, 116⟩, [9, 8, 7], 5⟩ =
      u32_to_be 3 ++ ChunkType.bytes ⟨82, 117, 83, 116⟩ ++ [9, 8, 7] ++ u32_to_be 5 := by
  have h := chunk_as_bytes_layout ⟨3, ⟨82, 117, 83, 116⟩, [9, 8, 7], 5⟩
  exact ⟨h.2.2.2.2.2.2 rfl, h.1⟩
